import Mathlib

/-!
Verification development for the django-drip campaign engine.

The Python source under `drip/` is shallowly embedded here:

* `drip/drips.py` — `DripBase` (audience selection `apply_queryset_rules`,
  `get_queryset`, `run`, `prune`, `send`, `walk`) and the Mailgun batch
  message (`MailgunBatchMessage.mailgun_variables_for_user`,
  `get_variables`);
* `drip/mailgun.py` — `chunks`, `send_batch`;
* `drip/models.py` — the `Drip`, `SentDrip` and `QuerySetRule` rows that
  the engine reads.

Django querysets are modelled as lists of rows; the external collaborators
(template rendering, the SMTP/Mailgun transport, Django's email and URL
validators) are passed in as function parameters, exactly where the source
calls out to them.  Times are modelled as abstract `Int` instants, and all
wall-clock reads inside one `run` are modelled as a single instant.
-/

namespace DjangoDrip

/-- Python-like attribute values, with Python truthiness.  `pfun` stands
for a callable attribute (the source applies `obj()` when
`callable(obj)`). -/
inductive PyVal where
  | pnone
  | pstr (s : String)
  | pint (n : Int)
  | pbool (b : Bool)
  | pfun (f : Unit → PyVal)

/-- Python truthiness of a value (`if not obj`). -/
def PyVal.truthy : PyVal → Bool
  | .pnone => false
  | .pstr s => !s.isEmpty
  | .pint n => n != 0
  | .pbool b => b
  | .pfun _ => true

/-- `obj() if callable(obj) else obj` from
`MailgunBatchMessage.mailgun_variables_for_user.get_value`. -/
def PyVal.call : PyVal → PyVal
  | .pfun f => f ()
  | v => v

/-- A row of the recipient store (`auth.User`): a primary key, an email
address, and arbitrary named attributes (`getattr(user, v, None)` is
`attrs v`, with `pnone` for a missing attribute). -/
structure User where
  id : Nat
  email : String
  attrs : String → PyVal

/-- A `SentDrip` row (`drip/models.py`): the record of one confirmed send. -/
structure SentDrip where
  date : Int
  drip : Nat
  user : Nat
  subject : String
  from_email : Option String
  from_email_name : Option String

/-- One `QuerySetRule` row, at the level `apply_queryset_rules` consumes
it: `method_type` is the stored string, `pred` is the denotation of
`Q(**rule.filter_kwargs(qs, now))` on one row (the kwargs never inspect
`qs`), and `annotate` is `rule.apply_any_annotation` on the queryset. -/
structure QuerySetRule where
  method_type : String
  pred : User → Bool
  annotate : List User → List User

/-- The fields of a `Drip` model row that `DripBase` reads. -/
structure DripModel where
  id : Nat
  enabled : Bool
  rules : List QuerySetRule

/-- The two stores the engine touches: the recipient store
(`User.objects`) and the `SentDrip` store. -/
structure DripState where
  users : List User
  sent : List SentDrip

/-- `DripBase.apply_queryset_rules`: one pass over the rules collects the
filter and exclude `Q` clauses (an unknown `method_type` falls back to the
filter clause, as `clauses.get(rule.method_type, clauses['filter'])` does)
and applies each rule's annotation; then all excludes are OR-reduced and
applied as one negated condition, and all filters are applied as one
conjunction. -/
def applyQuerysetRules (rules : List QuerySetRule) (qs : List User) : List User :=
  let acc := rules.foldl
    (fun (acc : List (User → Bool) × List (User → Bool) × List User) rule =>
      if rule.method_type == "exclude" then
        (acc.1, acc.2.1 ++ [rule.pred], rule.annotate acc.2.2)
      else
        (acc.1 ++ [rule.pred], acc.2.1, rule.annotate acc.2.2))
    ([], [], qs)
  let afterExclude := match acc.2.1 with
    | [] => acc.2.2
    | e :: es =>
        acc.2.2.filter
          (fun u => !(es.foldl (fun (a p : User → Bool) => fun x => a x || p x) e u))
  afterExclude.filter (fun u => acc.1.all (fun p => p u))

/-- `.distinct()` on a queryset: keep the first row with each primary key. -/
def distinctAux (seen : List Nat) : List User → List User
  | [] => []
  | u :: rest =>
      if u.id ∈ seen then distinctAux seen rest
      else u :: distinctAux (u.id :: seen) rest

/-- `DripBase.get_queryset` on its first call:
`apply_queryset_rules(queryset()).distinct()`. -/
def distinct (qs : List User) : List User := distinctAux [] qs

/-- The audience queryset of a drip, from the whole recipient store. -/
def getQueryset (rules : List QuerySetRule) (users : List User) : List User :=
  distinct (applyQuerysetRules rules users)

/-- The filter clauses collected by `apply_queryset_rules`, in rule order. -/
def filtersOf (rules : List QuerySetRule) : List (User → Bool) :=
  (rules.filter (fun r => !(r.method_type == "exclude"))).map (fun r => r.pred)

/-- The exclude clauses collected by `apply_queryset_rules`, in rule order. -/
def excludesOf (rules : List QuerySetRule) : List (User → Bool) :=
  (rules.filter (fun r => r.method_type == "exclude")).map (fun r => r.pred)

/-- A constructed `DripBase` instance: the attributes `__init__` leaves on
`self`.  `now_shift_days` is the `days` entry of `now_shift_kwargs`. -/
structure DripBase where
  drip_model : DripModel
  name : String
  from_email : Option String
  from_email_name : Option String
  subject_template : Option String
  body_template : Option String
  now_shift_days : Int

/-- The class-level attribute defaults of a `DripBase` subclass
(`name = None`, `subject_template = None`, ...), which `kwargs.pop`
falls back to. -/
structure DripClassDefaults where
  name : Option String := none
  from_email : Option String := none
  from_email_name : Option String := none
  subject_template : Option String := none
  body_template : Option String := none

/-- The keyword arguments of `DripBase.__init__`; a `none` field is an
absent key.  `now_shift_days` stands for `now_shift_kwargs` (`{}`, the
default, shifts by 0 days). -/
structure DripKwargs where
  name : Option String := none
  from_email : Option String := none
  from_email_name : Option String := none
  subject_template : Option String := none
  body_template : Option String := none
  now_shift_days : Option Int := none

/-- `DripBase.__init__`: each attribute is `kwargs.pop(key, class default)`;
a missing or empty name raises `AttributeError('You must define a name.')`. -/
def DripBase.init (defaults : DripClassDefaults) (drip_model : DripModel)
    (kwargs : DripKwargs) : Except String DripBase :=
  let name := kwargs.name <|> defaults.name
  let from_email := kwargs.from_email <|> defaults.from_email
  let from_email_name := kwargs.from_email_name <|> defaults.from_email_name
  let subject_template := kwargs.subject_template <|> defaults.subject_template
  let body_template := kwargs.body_template <|> defaults.body_template
  match name with
  | none => .error "You must define a name."
  | some n =>
      if n = "" then .error "You must define a name."
      else .ok { drip_model, name := n, from_email, from_email_name,
                 subject_template, body_template,
                 now_shift_days := kwargs.now_shift_days.getD 0 }

/-- `DripBase.now()`: wall-clock now plus `timedelta(**now_shift_kwargs)`,
in seconds with 86400-second days. -/
def DripBase.effectiveNow (self : DripBase) (wallNow : Int) : Int :=
  wallNow + self.now_shift_days * 86400

/-- `DripBase.walk(into_past, into_future)`: for each `shift` in
`range(-into_past, into_future)`, construct `self.__class__` passing only
`drip_model`, `name` and `now_shift_kwargs={'days': shift}`. -/
def DripBase.walk (defaults : DripClassDefaults) (self : DripBase)
    (into_past into_future : Nat) : List (Except String DripBase) :=
  (List.range (into_past + into_future)).map (fun (i : Nat) =>
    DripBase.init defaults self.drip_model
      { name := some self.name,
        now_shift_days := some ((i : Int) - (into_past : Int)) })

/-- `DripBase.get_queryset` of this drip over the recipient store. -/
def DripBase.queryset (self : DripBase) (st : DripState) : List User :=
  getQueryset self.drip_model.rules st.users

/-- `DripBase.prune`: exclude from the queryset every user id that owns a
`SentDrip` for this drip dated strictly before wall-clock now
(`SentDrip.objects.filter(date__lt=conditional_now(), drip=self.drip_model,
user__id__in=target_user_ids)`), and set the cached queryset to the result. -/
def DripBase.prune (self : DripBase) (wallNow : Int) (st : DripState) : List User :=
  let target := self.queryset st
  let targetIds : List Nat := target.map (fun u => u.id)
  let excludeIds : List Nat :=
    (st.sent.filter (fun sd =>
      decide (sd.date < wallNow ∧ sd.drip = self.drip_model.id ∧ sd.user ∈ targetIds))).map
      (fun sd => sd.user)
  target.filter (fun u => decide (u.id ∉ excludeIds))

/-- `if not self.from_email: self.from_email = settings.DRIP_FROM_EMAIL
or DEFAULT_FROM_EMAIL` at the top of `DripBase.send`. -/
def DripBase.effectiveFrom (self : DripBase) (settingsFrom : String) : String :=
  match self.from_email with
  | none => settingsFrom
  | some s => if s = "" then settingsFrom else s

/-- The `SentDrip` row `DripBase.send` creates for one user.
`renderSubject` is the external template rendering of
`message_instance.subject`. -/
def DripBase.sentRecord (self : DripBase) (effFrom : String)
    (renderSubject : User → String) (date : Int) (u : User) : SentDrip :=
  { date, drip := self.drip_model.id, user := u.id,
    subject := renderSubject u,
    from_email := some effFrom, from_email_name := self.from_email_name }

/-- One iteration of the loop in `DripBase.send`: try
`message_instance.message.send()` (the external transport `sendFn`, whose
`.error` is a raised exception and whose `.ok` is the returned count); on
an exception log and move on; on a truthy result create a `SentDrip` and
bump the count. -/
def DripBase.sendStep (self : DripBase) (effFrom : String)
    (renderSubject : User → String) (date : Int)
    (sendFn : User → Except String Nat)
    (acc : Nat × DripState) (u : User) : Nat × DripState :=
  match sendFn u with
  | .error _ => acc
  | .ok result =>
      if result = 0 then acc
      else (acc.1 + 1,
            { acc.2 with
              sent := acc.2.sent ++ [self.sentRecord effFrom renderSubject date u] })

/-- `DripBase.send` over the (already pruned) queryset `qs`: fold the
per-user step, returning the count of created `SentDrip`s and the updated
stores. -/
def DripBase.send (self : DripBase) (sendFn : User → Except String Nat)
    (renderSubject : User → String) (settingsFrom : String) (date : Int)
    (qs : List User) (st : DripState) : Nat × DripState :=
  qs.foldl (self.sendStep (self.effectiveFrom settingsFrom) renderSubject date sendFn) (0, st)

/-- The `SentDrip` rows `send` creates, in order: one per user whose
transport call returned a truthy count. -/
def DripBase.successRecords (self : DripBase) (effFrom : String)
    (renderSubject : User → String) (date : Int)
    (sendFn : User → Except String Nat) (qs : List User) : List SentDrip :=
  qs.filterMap (fun u =>
    match sendFn u with
    | .error _ => none
    | .ok result =>
        if result = 0 then none
        else some (self.sentRecord effFrom renderSubject date u))

/-- `DripBase.run`: `None` if the drip model is disabled; otherwise prune
then send, returning the count of created `SentDrip`s. -/
def DripBase.run (self : DripBase) (sendFn : User → Except String Nat)
    (renderSubject : User → String) (settingsFrom : String)
    (wallNow : Int) (st : DripState) : Option Nat × DripState :=
  if !self.drip_model.enabled then (none, st)
  else
    let pruned := self.prune wallNow st
    let res := self.send sendFn renderSubject settingsFrom wallNow pruned st
    (some res.1, res.2)

/-- A value of the recipient-variables mapping passed to `send_batch`:
either a nested mapping (the valid shape) or a scalar. -/
inductive VarVal where
  | vdict (entries : List (String × String))
  | vscalar (s : String)
deriving DecidableEq

/-- The length of Python's `range(start, stop, step)` for a nonzero step. -/
def pyRangeLen (start stop step : Int) : Nat :=
  if 0 < step then (((stop - start) + step - 1) / step).toNat
  else (((start - stop) + (-step) - 1) / (-step)).toNat

/-- Python's `range(start, stop, step)` as a list; a zero step raises
`ValueError`. -/
def pyRange (start stop step : Int) : Except String (List Int) :=
  if step = 0 then .error "range() arg 3 must not be zero"
  else .ok ((List.range (pyRangeLen start stop step)).map (fun (i : Nat) => start + step * (i : Int)))

/-- `chunks(xs, size)` from `drip/mailgun.py`:
`for i in range(0, len(xs), size): yield xs[i:i+size]`. -/
def chunks {α : Type} (xs : List α) (size : Int) : Except String (List (List α)) :=
  (pyRange 0 (xs.length : Int) size).map
    (fun idxs => idxs.map (fun i => (xs.drop i.toNat).take size.toNat))

/-- Recursive reference form of `chunks` for a positive chunk size:
repeatedly take `m` elements (`m+1` in this indexing) off the front. -/
def chunksRec {α : Type} : Nat → List α → List (List α)
  | _, [] => []
  | 0, _ :: _ => []
  | m + 1, x :: xs => ((x :: xs).take (m + 1)) :: chunksRec (m + 1) (xs.drop m)
termination_by _ l => l.length
decreasing_by simp; omega

/-- One Mailgun API request assembled by `send_batch` for one chunk: the
POST url and auth, plus the `data` payload (`subject`, `from`, `to`,
`recipient-variables`, and `html`/`text` only when the corresponding
template is non-empty). -/
structure MgRequest where
  url : String
  auth_user : String
  auth_key : String
  subject : String
  from_email : String
  recipients : List String
  recipient_variables : List (String × VarVal)
  html : Option String
  plain : Option String

/-- The errors `send_batch` can raise: `TypeError` for a non-mapping
value, Django's `ValidationError` from the email/url validators,
`ValueError` from `range`, and an exception propagating out of the
transport `post`. -/
inductive MgError where
  | typeErr (msg : String)
  | validationErr (msg : String)
  | valueErr (msg : String)
  | postErr (msg : String)
deriving DecidableEq

/-- The per-entry validation loop of `send_batch`: for each
`(email, vmap)` item, `validate_email(email)` and then require
`vmap` to be a mapping, failing on the first offending entry. -/
def validateEntries (validEmail : String → Bool) :
    List (String × VarVal) → Except MgError Unit
  | [] => .ok ()
  | (email, vmap) :: rest =>
      if !validEmail email then .error (.validationErr email)
      else
        match vmap with
        | .vdict _ => validateEntries validEmail rest
        | _ => .error (.typeErr "Should be dict as described in the Mailgun user manual")

/-- Substitute the placeholder `\x7b0\x7d` by `d` in a character list. -/
def formatSub (d : List Char) : List Char → List Char
  | [] => []
  | '\x7b' :: '0' :: '\x7d' :: rest => d ++ formatSub d rest
  | c :: rest => c :: formatSub d rest

/-- `url_template.format(mailgun_domain)`. -/
def urlFormat (url_template domain : String) : String :=
  ⟨formatSub domain.data url_template.data⟩

/-- The request `send_batch` builds for one chunk: `to` is
`zip(*chunk)[0]`, `recipient-variables` is `dict(chunk)`, and the html and
plain bodies are included only when non-empty. -/
def mkRequest (url subject from_email template_html template_plain api_key : String)
    (chunk : List (String × VarVal)) : MgRequest :=
  { url, auth_user := "api", auth_key := api_key, subject, from_email,
    recipients := chunk.map Prod.fst,
    recipient_variables := chunk,
    html := if template_html ≠ "" then some template_html else none,
    plain := if template_plain ≠ "" then some template_plain else none }

/-- The chunk loop of `send_batch`: post each chunk's request, appending
the response; a raised transport exception propagates immediately.  The
first component is the list of requests actually posted, the second the
function's outcome. -/
def sendChunksAux {ρ : Type} (post : MgRequest → Except String ρ)
    (mk : List (String × VarVal) → MgRequest) :
    List (List (String × VarVal)) → List MgRequest × Except MgError (List ρ)
  | [] => ([], .ok [])
  | c :: rest =>
      let req := mk c
      match post req with
      | .error e => ([req], .error (.postErr e))
      | .ok r =>
          let tail := sendChunksAux post mk rest
          (req :: tail.1, tail.2.map (fun rs => r :: rs))

/-- `send_batch` from `drip/mailgun.py`.  The `recipient_variables_dict`
is an insertion-ordered association list (its `isinstance(…, dict)` check
is discharged by the type); `validEmail`/`validURL` stand for Django's
`EmailValidator`/`URLValidator`, and `post` for the transport.  All
validation happens before any chunking or posting; the chunk loop then
posts one request per chunk, accumulating responses. -/
def sendBatch {ρ : Type} (validEmail validURL : String → Bool)
    (post : MgRequest → Except String ρ)
    (subject template_html template_plain : String)
    (recipient_variables_dict : List (String × VarVal))
    (from_email api_key domain : String)
    (batchsize : Int) (url_template : String) :
    List MgRequest × Except MgError (List ρ) :=
  match validateEntries validEmail recipient_variables_dict with
  | .error e => ([], .error e)
  | .ok _ =>
      if !validURL url_template then ([], .error (.validationErr url_template))
      else
        let url := urlFormat url_template domain
        match chunks recipient_variables_dict batchsize with
        | .error msg => ([], .error (.valueErr msg))
        | .ok cs =>
            sendChunksAux post
              (mkRequest url subject from_email template_html template_plain api_key) cs

/-- The parts of `MailgunBatchMessage` that variable resolution reads:
the drip's declared variable names and the message class's
`get_var_<name>` accessor methods (`accessors v` is
`getattr(self, 'get_var_' + v, None)`; the bound method applied to a user
is `f user`). -/
structure BatchMessage where
  vnames : List String
  accessors : String → Option (User → PyVal)

/-- `get_value` inside `MailgunBatchMessage.mailgun_variables_for_user`:
read the attribute off the user; if it is falsy, fall back to the
`get_var_<v>` accessor partially applied to the user; with no accessor,
raise a `ValueError` naming the variable under strict mode or return the
empty string otherwise; finally call the object if it is callable. -/
def BatchMessage.getValue (m : BatchMessage) (user : User) (strict : Bool)
    (v : String) : Except String PyVal :=
  let obj := user.attrs v
  if !obj.truthy then
    match m.accessors v with
    | some f => .ok (PyVal.call (.pfun (fun _ => f user)))
    | none =>
        if strict then
          .error ("There is no way to get `" ++ v ++ "` from user."
                  ++ "user." ++ v ++ " and MailgunBatchMessage.get_var_" ++ v ++ " tried")
        else .ok (.pstr "")
  else .ok (PyVal.call obj)

/-- `MailgunBatchMessage.mailgun_variables_for_user`: the dict
`{v: get_value(v) for v in variables}`; a raised `ValueError` propagates. -/
def BatchMessage.mailgunVariablesForUser (m : BatchMessage) (user : User)
    (strict : Bool) : Except String (List (String × PyVal)) :=
  m.vnames.mapM (fun v => (m.getValue user strict v).map (fun val => (v, val)))

/-- `MailgunBatchMessage.get_variables`: the dict
`{u.email: mailgun_variables_for_user(u, strict) for u in qs if u.email}`,
skipping every user with a falsy email address. -/
def BatchMessage.getVariables (m : BatchMessage) (qs : List User)
    (strict : Bool) : Except String (List (String × List (String × PyVal))) :=
  (qs.filter (fun u => !u.email.isEmpty)).mapM
    (fun u => (m.mailgunVariablesForUser u strict).map (fun vs => (u.email, vs)))

/-! ### Lemmas about audience selection -/

lemma orFold_eval (es : List (User → Bool)) (e : User → Bool) (u : User) :
    es.foldl (fun (a p : User → Bool) => fun x => a x || p x) e u
      = (e u || es.any (fun p => p u)) := by
  induction es generalizing e with
  | nil => simp
  | cons p ps ih =>
    simp only [List.foldl_cons, List.any_cons]
    rw [ih]
    simp [Bool.or_assoc]

lemma collect_clauses (rules : List QuerySetRule) :
    ∀ (fs es : List (User → Bool)) (q : List User),
      (∀ r ∈ rules, r.annotate = id) →
      rules.foldl
        (fun (acc : List (User → Bool) × List (User → Bool) × List User) rule =>
          if rule.method_type == "exclude" then
            (acc.1, acc.2.1 ++ [rule.pred], rule.annotate acc.2.2)
          else
            (acc.1 ++ [rule.pred], acc.2.1, rule.annotate acc.2.2)) (fs, es, q)
      = (fs ++ filtersOf rules, es ++ excludesOf rules, q) := by
  induction rules with
  | nil => intro fs es q _; simp [filtersOf, excludesOf]
  | cons r rs ih =>
    intro fs es q hann
    have hr : r.annotate q = q := by
      rw [hann r (List.mem_cons_self r rs)]; rfl
    have htail : ∀ s ∈ rs, s.annotate = id :=
      fun s hs => hann s (List.mem_cons_of_mem r hs)
    simp only [List.foldl_cons]
    cases h : r.method_type == "exclude" with
    | true =>
      simp only [h, if_true, hr]
      rw [ih (fs) (es ++ [r.pred]) q htail]
      simp [filtersOf, excludesOf, List.filter_cons, h]
    | false =>
      simp only [h, Bool.false_eq_true, if_false, hr]
      rw [ih (fs ++ [r.pred]) es q htail]
      simp [filtersOf, excludesOf, List.filter_cons, h]

lemma mem_of_mem_distinctAux :
    ∀ (seen : List Nat) (l : List User) (u : User),
      u ∈ distinctAux seen l → u ∈ l := by
  intro seen l
  induction l generalizing seen with
  | nil => intro u h; simp [distinctAux] at h
  | cons v rest ih =>
    intro u h
    simp only [distinctAux] at h
    by_cases hv : v.id ∈ seen
    · rw [if_pos hv] at h
      exact List.mem_cons_of_mem v (ih seen u h)
    · rw [if_neg hv] at h
      rcases List.mem_cons.mp h with h1 | h1
      · rw [h1]; exact List.mem_cons_self v rest
      · exact List.mem_cons_of_mem v (ih _ u h1)

lemma mem_of_mem_distinct (l : List User) (u : User) (h : u ∈ distinct l) :
    u ∈ l :=
  mem_of_mem_distinctAux [] l u h

lemma applyQuerysetRules_eq (rules : List QuerySetRule) (users : List User)
    (hann : ∀ r ∈ rules, r.annotate = id) :
    applyQuerysetRules rules users
      = (users.filter (fun u => !((excludesOf rules).any (fun p => p u)))).filter
          (fun u => (filtersOf rules).all (fun p => p u)) := by
  unfold applyQuerysetRules
  rw [collect_clauses rules [] [] users hann]
  simp only [List.nil_append]
  cases hex : excludesOf rules with
  | nil => simp
  | cons e es =>
    congr 1
    apply List.filter_congr
    intro u _
    rw [orFold_eval]
    simp

/-! ### Lemmas about prune, send and run -/

lemma mem_prune_iff (self : DripBase) (wallNow : Int) (st : DripState) (x : User) :
    x ∈ self.prune wallNow st
      ↔ x ∈ self.queryset st
        ∧ x.id ∉ ((st.sent.filter (fun sd =>
            decide (sd.date < wallNow ∧ sd.drip = self.drip_model.id ∧
              sd.user ∈ (self.queryset st).map (fun u => u.id)))).map
            (fun sd => sd.user)) := by
  unfold DripBase.prune
  simp [List.mem_filter]

lemma prune_excludes (self : DripBase) (wallNow : Int) (st : DripState) (u : User)
    (hsd : ∃ sd ∈ st.sent, sd.drip = self.drip_model.id ∧ sd.user = u.id ∧
      sd.date < wallNow) :
    ∀ x ∈ self.prune wallNow st, x.id ≠ u.id := by
  obtain ⟨sd, hmem, hdrip, huser, hdate⟩ := hsd
  intro x hx hxu
  obtain ⟨hxq, hxni⟩ := (mem_prune_iff self wallNow st x).mp hx
  apply hxni
  refine List.mem_map.mpr ⟨sd, List.mem_filter.mpr ⟨hmem, ?_⟩, ?_⟩
  · rw [decide_eq_true_eq]
    refine ⟨hdate, hdrip, ?_⟩
    rw [huser, ← hxu]
    exact List.mem_map.mpr ⟨x, hxq, rfl⟩
  · rw [huser, hxu]

lemma successRecords_mem (self : DripBase) (effFrom : String)
    (renderSubject : User → String) (date : Int)
    (sendFn : User → Except String Nat) (qs : List User) (r : SentDrip)
    (h : r ∈ self.successRecords effFrom renderSubject date sendFn qs) :
    ∃ x, x ∈ qs ∧ r.user = x.id ∧ ∃ k, sendFn x = .ok k ∧ k ≠ 0 := by
  obtain ⟨x, hx, hfx⟩ := List.mem_filterMap.mp h
  cases hsf : sendFn x with
  | error e => rw [hsf] at hfx; simp at hfx
  | ok k =>
    simp only [hsf] at hfx
    by_cases hk : k = 0
    · rw [if_pos hk] at hfx; simp at hfx
    · rw [if_neg hk] at hfx
      have hr : self.sentRecord effFrom renderSubject date x = r :=
        Option.some_inj.mp hfx
      exact ⟨x, hx, by rw [← hr]; rfl, k, hsf, hk⟩

lemma sendFold_aux (self : DripBase) (effFrom : String)
    (renderSubject : User → String) (date : Int)
    (sendFn : User → Except String Nat) :
    ∀ (qs : List User) (c : Nat) (st : DripState),
      qs.foldl (self.sendStep effFrom renderSubject date sendFn) (c, st)
        = (c + (self.successRecords effFrom renderSubject date sendFn qs).length,
           { st with sent := st.sent
               ++ self.successRecords effFrom renderSubject date sendFn qs }) := by
  intro qs
  induction qs with
  | nil => intro c st; simp [DripBase.successRecords]
  | cons u rest ih =>
    intro c st
    simp only [List.foldl_cons]
    cases hs : sendFn u with
    | error e =>
      have hstep : self.sendStep effFrom renderSubject date sendFn (c, st) u = (c, st) := by
        simp [DripBase.sendStep, hs]
      rw [hstep, ih]
      simp [DripBase.successRecords, List.filterMap_cons, hs]
    | ok k =>
      by_cases hk : k = 0
      · have hstep : self.sendStep effFrom renderSubject date sendFn (c, st) u = (c, st) := by
          simp [DripBase.sendStep, hs, hk]
        rw [hstep, ih]
        simp [DripBase.successRecords, List.filterMap_cons, hs, hk]
      · have hstep : self.sendStep effFrom renderSubject date sendFn (c, st) u
            = (c + 1, { st with sent := st.sent ++ [self.sentRecord effFrom renderSubject date u] }) := by
          simp [DripBase.sendStep, hs, hk]
        rw [hstep, ih]
        simp only [DripBase.successRecords, List.filterMap_cons, hs, if_neg hk, List.length_cons]
        rw [Prod.mk.injEq]
        constructor
        · omega
        · simp [List.append_assoc]

lemma send_spec (self : DripBase) (sendFn : User → Except String Nat)
    (renderSubject : User → String) (settingsFrom : String) (date : Int)
    (qs : List User) (st : DripState) :
    self.send sendFn renderSubject settingsFrom date qs st
      = ((self.successRecords (self.effectiveFrom settingsFrom) renderSubject date sendFn qs).length,
         { st with sent := st.sent ++ self.successRecords (self.effectiveFrom settingsFrom) renderSubject date sendFn qs }) := by
  unfold DripBase.send
  rw [sendFold_aux]
  simp

lemma run_enabled_spec (self : DripBase) (sendFn : User → Except String Nat)
    (renderSubject : User → String) (settingsFrom : String) (wallNow : Int)
    (st : DripState) (hen : self.drip_model.enabled = true) :
    self.run sendFn renderSubject settingsFrom wallNow st
      = (some (self.successRecords (self.effectiveFrom settingsFrom) renderSubject wallNow sendFn (self.prune wallNow st)).length,
         { st with sent := st.sent ++ self.successRecords (self.effectiveFrom settingsFrom) renderSubject wallNow sendFn (self.prune wallNow st) }) := by
  unfold DripBase.run
  rw [hen]
  simp only [Bool.not_true, Bool.false_eq_true, if_false]
  rw [send_spec]

/-! ### Concrete fixtures used by witnesses and counterexamples -/

def uW1 : User := { id := 1, email := "u1@example.com", attrs := fun _ => .pnone }

def uW2 : User := { id := 2, email := "u2@example.com", attrs := fun _ => .pnone }

def uW3 : User := { id := 3, email := "u3@example.com", attrs := fun _ => .pnone }

def ruleA : QuerySetRule :=
  { method_type := "exclude", pred := fun u => u.id == 1, annotate := id }

def ruleB : QuerySetRule :=
  { method_type := "exclude", pred := fun u => u.id == 2, annotate := id }

def dmOn : DripModel := { id := 5, enabled := true, rules := [] }

def dmOff : DripModel := { id := 6, enabled := false, rules := [] }

def dripOn : DripBase :=
  { drip_model := dmOn, name := "weekly", from_email := none, from_email_name := none,
    subject_template := none, body_template := none, now_shift_days := 0 }

def dripOff : DripBase :=
  { drip_model := dmOff, name := "weekly", from_email := none, from_email_name := none,
    subject_template := none, body_template := none, now_shift_days := 0 }

def sdOld : SentDrip :=
  { date := 50, drip := 5, user := 1, subject := "s", from_email := none,
    from_email_name := none }

def stW : DripState := { users := [uW1, uW2], sent := [sdOld] }

def st9 : DripState := { users := [uW1, uW2, uW3], sent := [] }

def wSendFn : User → Except String Nat :=
  fun u => if u.id = 2 then .error "boom" else .ok 1

/-! ### Claim theorems -/

/-- C2: audience selection OR-combines all exclude predicates and applies
them as a single negated condition, AND-combines all filter predicates as
one condition, and deduplicates the result; consequently a recipient
matching any single exclude predicate is removed from the audience. -/
theorem C2_audience_selection (rules : List QuerySetRule) (users : List User)
    (hann : ∀ r ∈ rules, r.annotate = id) :
    getQueryset rules users
      = distinct ((users.filter (fun u => !((excludesOf rules).any (fun p => p u)))).filter
          (fun u => (filtersOf rules).all (fun p => p u)))
    ∧ ∀ r ∈ rules, r.method_type = "exclude" → ∀ u, r.pred u = true →
        u ∉ getQueryset rules users := by
  have heq := applyQuerysetRules_eq rules users hann
  constructor
  · unfold getQueryset; rw [heq]
  · intro r hr hm u hp hu
    have h1 : u ∈ applyQuerysetRules rules users := mem_of_mem_distinct _ u hu
    rw [heq] at h1
    have h2 := (List.mem_filter.mp h1).1
    have h3 := (List.mem_filter.mp h2).2
    have hmem : r.pred ∈ excludesOf rules := by
      unfold excludesOf
      exact List.mem_map_of_mem _ (List.mem_filter.mpr ⟨hr, by simp [hm]⟩)
    have hany : (excludesOf rules).any (fun p => p u) = true :=
      List.any_eq_true.mpr ⟨r.pred, hmem, hp⟩
    rw [hany] at h3
    exact absurd h3 (by decide)

/-- Witness for C2 on two exclude rules over three users. -/
theorem C2_audience_selection_witness :
    (getQueryset [ruleA, ruleB] [uW1, uW2, uW3]
      = distinct (([uW1, uW2, uW3].filter
            (fun u => !((excludesOf [ruleA, ruleB]).any (fun p => p u)))).filter
          (fun u => (filtersOf [ruleA, ruleB]).all (fun p => p u)))
    ∧ ∀ r ∈ [ruleA, ruleB], r.method_type = "exclude" → ∀ u, r.pred u = true →
        u ∉ getQueryset [ruleA, ruleB] [uW1, uW2, uW3]) :=
  C2_audience_selection [ruleA, ruleB] [uW1, uW2, uW3] (by
    intro r hr
    rcases List.mem_cons.mp hr with h | h
    · rw [h]; rfl
    · rcases List.mem_cons.mp h with h2 | h2
      · rw [h2]; rfl
      · simp at h2)

/-- C1: if a `SentDrip` for this drip and recipient exists dated strictly
before the run's evaluation instant, `run` never selects that recipient
into the pruned audience, never sends to them, and never creates another
`SentDrip` for them; and every `SentDrip` a run creates corresponds to a
pruned-audience member whose transport call returned a truthy result. -/
theorem C1_sent_record_dedup (self : DripBase) (sendFn : User → Except String Nat)
    (renderSubject : User → String) (settingsFrom : String) (wallNow : Int)
    (st : DripState) (u : User)
    (hsd : ∃ sd ∈ st.sent, sd.drip = self.drip_model.id ∧ sd.user = u.id ∧
      sd.date < wallNow) :
    (∀ x ∈ self.prune wallNow st, x.id ≠ u.id)
    ∧ u ∉ self.prune wallNow st
    ∧ ∃ newRecs,
        ((self.run sendFn renderSubject settingsFrom wallNow st).2).sent
          = st.sent ++ newRecs
        ∧ (∀ r ∈ newRecs, r.user ≠ u.id)
        ∧ (∀ r ∈ newRecs, ∃ x, x ∈ self.prune wallNow st ∧ r.user = x.id
             ∧ ∃ k, sendFn x = .ok k ∧ k ≠ 0) := by
  have hkey := prune_excludes self wallNow st u hsd
  refine ⟨hkey, fun hu => hkey u hu rfl, ?_⟩
  by_cases hen : self.drip_model.enabled = true
  · rw [run_enabled_spec self sendFn renderSubject settingsFrom wallNow st hen]
    refine ⟨self.successRecords (self.effectiveFrom settingsFrom) renderSubject wallNow
        sendFn (self.prune wallNow st), rfl, ?_, ?_⟩
    · intro r hr
      obtain ⟨x, hxq, hru, -⟩ := successRecords_mem self _ _ _ _ _ r hr
      rw [hru]; exact hkey x hxq
    · intro r hr
      obtain ⟨x, hxq, hru, k, hsk, hk⟩ := successRecords_mem self _ _ _ _ _ r hr
      exact ⟨x, hxq, hru, k, hsk, hk⟩
  · have henf : self.drip_model.enabled = false := by
      revert hen; cases self.drip_model.enabled <;> simp
    have hrun : self.run sendFn renderSubject settingsFrom wallNow st = (none, st) := by
      simp [DripBase.run, henf]
    rw [hrun]
    exact ⟨[], by simp, by simp, by simp⟩

/-- Witness for C1: a user with an old `SentDrip` is pruned and gets no
second record. -/
theorem C1_sent_record_dedup_witness :
    ((∀ x ∈ dripOn.prune 100 stW, x.id ≠ uW1.id)
    ∧ uW1 ∉ dripOn.prune 100 stW
    ∧ ∃ newRecs,
        ((dripOn.run wSendFn (fun _ => "subj") "from@example.com" 100 stW).2).sent
          = stW.sent ++ newRecs
        ∧ (∀ r ∈ newRecs, r.user ≠ uW1.id)
        ∧ (∀ r ∈ newRecs, ∃ x, x ∈ dripOn.prune 100 stW ∧ r.user = x.id
             ∧ ∃ k, wSendFn x = .ok k ∧ k ≠ 0)) :=
  C1_sent_record_dedup dripOn wSendFn (fun _ => "subj") "from@example.com" 100 stW uW1
    ⟨sdOld, List.mem_cons_self sdOld [], rfl, rfl, by decide⟩

/-- C7 fails as stated: a disabled drip's `run` returns `None`, not the
count `0`; it leaves the stores untouched. -/
theorem C7_counterexample :
    dripOff.run (fun _ => .ok 1) (fun _ => "subj") "from@example.com" 100 stW
      = (none, stW)
    ∧ (none : Option Nat) ≠ some 0 :=
  ⟨rfl, by decide⟩

/-- C7 (amended): for every disabled drip, `run` returns `None` (no
count), performs no store writes, and calls the transport on nobody
(the result is the untouched state for every transport function). -/
theorem C7_disabled_noop (self : DripBase) (sendFn : User → Except String Nat)
    (renderSubject : User → String) (settingsFrom : String) (wallNow : Int)
    (st : DripState) (hdis : self.drip_model.enabled = false) :
    self.run sendFn renderSubject settingsFrom wallNow st = (none, st) := by
  simp [DripBase.run, hdis]

/-- Witness for the amended C7. -/
theorem C7_disabled_noop_witness :
    dripOff.run wSendFn (fun _ => "subj") "from@example.com" 100 stW = (none, stW) :=
  C7_disabled_noop dripOff wSendFn (fun _ => "subj") "from@example.com" 100 stW rfl

/-- C9: a transport exception for one recipient is swallowed: every
recipient after the failing one is still processed, the failing recipient
contributes neither a `SentDrip` nor a count, and `run` returns exactly
the number of `SentDrip` rows it appended. -/
theorem C9_send_failure_isolated (self : DripBase) (sendFn : User → Except String Nat)
    (renderSubject : User → String) (settingsFrom : String) (wallNow : Int)
    (st : DripState) (xs ys : List User) (x : User) (e : String)
    (hen : self.drip_model.enabled = true)
    (hpr : self.prune wallNow st = xs ++ x :: ys)
    (hx : sendFn x = .error e) :
    self.run sendFn renderSubject settingsFrom wallNow st
      = (some ((self.successRecords (self.effectiveFrom settingsFrom) renderSubject wallNow sendFn xs).length
               + (self.successRecords (self.effectiveFrom settingsFrom) renderSubject wallNow sendFn ys).length),
         { st with sent := st.sent
             ++ (self.successRecords (self.effectiveFrom settingsFrom) renderSubject wallNow sendFn xs
                 ++ self.successRecords (self.effectiveFrom settingsFrom) renderSubject wallNow sendFn ys) }) := by
  rw [run_enabled_spec self sendFn renderSubject settingsFrom wallNow st hen, hpr]
  simp [DripBase.successRecords, List.filterMap_append, List.filterMap_cons, hx]

/-- Witness for C9: the middle of three recipients fails; the other two
still get records and the count is 2. -/
theorem C9_send_failure_isolated_witness :
    dripOn.run wSendFn (fun _ => "subj") "from@example.com" 100 st9
      = (some ((dripOn.successRecords (dripOn.effectiveFrom "from@example.com") (fun _ => "subj") 100 wSendFn [uW1]).length
               + (dripOn.successRecords (dripOn.effectiveFrom "from@example.com") (fun _ => "subj") 100 wSendFn [uW3]).length),
         { st9 with sent := st9.sent
             ++ (dripOn.successRecords (dripOn.effectiveFrom "from@example.com") (fun _ => "subj") 100 wSendFn [uW1]
                 ++ dripOn.successRecords (dripOn.effectiveFrom "from@example.com") (fun _ => "subj") 100 wSendFn [uW3]) }) :=
  C9_send_failure_isolated dripOn wSendFn (fun _ => "subj") "from@example.com" 100 st9
    [uW1] [uW3] uW2 "boom" rfl rfl rfl

def defaults0 : DripClassDefaults := {}

def dripSrc : DripBase :=
  { drip_model := dmOn, name := "weekly", from_email := none, from_email_name := none,
    subject_template := some "S", body_template := none, now_shift_days := 0 }

/-- C6 fails as stated: `walk` rebuilds instances passing only the drip
model, the name and the shift, so an instance whose `subject_template`
was overridden at construction yields walked instances whose
`subject_template` reverts to the class default instead of matching the
source instance. -/
def walked0 : DripBase :=
  { drip_model := dmOn, name := "weekly", from_email := none, from_email_name := none,
    subject_template := none, body_template := none, now_shift_days := 0 }

theorem C6_counterexample :
    DripBase.walk defaults0 dripSrc 0 1 = [Except.ok walked0]
    ∧ dripSrc.subject_template = some "S"
    ∧ walked0.subject_template ≠ dripSrc.subject_template :=
  ⟨rfl, rfl, by decide⟩

/-- C6 (amended): `walk(p, f)` yields exactly `p+f` instances, the `i`-th
constructed with day offset `i - p` (so offsets `-p, …, f-1` in order),
each sharing the source's drip model and name but taking `from_email`,
`from_email_name`, `subject_template` and `body_template` from the class
defaults rather than from the source instance. -/
theorem C6_walk_spec (defaults : DripClassDefaults) (self : DripBase)
    (p f : Nat) (hname : self.name ≠ "") :
    DripBase.walk defaults self p f
      = (List.range (p + f)).map (fun i => Except.ok
          { drip_model := self.drip_model, name := self.name,
            from_email := defaults.from_email,
            from_email_name := defaults.from_email_name,
            subject_template := defaults.subject_template,
            body_template := defaults.body_template,
            now_shift_days := (i : Int) - (p : Int) })
    ∧ (DripBase.walk defaults self p f).length = p + f := by
  constructor
  · unfold DripBase.walk
    apply List.map_congr_left
    intro i _
    simp [DripBase.init, hname]
  · simp [DripBase.walk]

/-- Witness for the amended C6 at `p = 1`, `f = 2`. -/
theorem C6_walk_spec_witness :
    (DripBase.walk defaults0 dripSrc 1 2
      = (List.range (1 + 2)).map (fun i => Except.ok
          { drip_model := dripSrc.drip_model, name := dripSrc.name,
            from_email := defaults0.from_email,
            from_email_name := defaults0.from_email_name,
            subject_template := defaults0.subject_template,
            body_template := defaults0.body_template,
            now_shift_days := (i : Int) - (1 : Nat) })
    ∧ (DripBase.walk defaults0 dripSrc 1 2).length = 1 + 2) :=
  C6_walk_spec defaults0 dripSrc 1 2 (by decide)

/-! ### Lemmas about chunking and batch dispatch -/

/-- Pure index form of `chunks` for a positive chunk size. -/
def chunksIdx {α : Type} (m : Nat) (xs : List α) : List (List α) :=
  (List.range ((xs.length + m - 1) / m)).map (fun j => (xs.drop (m * j)).take m)

lemma pyRangeLen_nat (L m : Nat) (hm : 0 < m) :
    pyRangeLen 0 (L : Int) (m : Int) = (L + m - 1) / m := by
  unfold pyRangeLen
  rw [if_pos (by exact_mod_cast hm : (0:Int) < (m : Int))]
  have h1 : ((L : Int) - 0) + (m:Int) - 1 = ((L + m - 1 : Nat) : Int) := by
    push_cast [Nat.cast_sub (by omega : 1 ≤ L + m)]
    ring
  rw [h1, ← Int.ofNat_ediv, Int.toNat_natCast]

lemma ceilDiv_succ (L m : Nat) (hm : 0 < m) (hL : 0 < L) :
    (L + m - 1) / m = (L - m + m - 1) / m + 1 := by
  by_cases h : m ≤ L
  · have heq : L + m - 1 = (L - m + m - 1) + m := by omega
    rw [heq, Nat.add_div_right _ hm]
  · have h1 : (L + m - 1) / m = 1 := by
      apply Nat.div_eq_of_lt_le
      · omega
      · omega
    have h2 : (L - m + m - 1) / m = 0 := by
      apply Nat.div_eq_of_lt
      omega
    omega

lemma chunks_eq_chunksIdx {α : Type} (m : Nat) (hm : 0 < m) (xs : List α) :
    chunks xs (m : Int) = .ok (chunksIdx m xs) := by
  unfold chunks pyRange
  rw [if_neg (by exact_mod_cast hm.ne' : ¬((m:Int) = 0))]
  simp only [Except.map]
  congr 1
  unfold chunksIdx
  rw [pyRangeLen_nat xs.length m hm, List.map_map]
  apply List.map_congr_left
  intro j _
  simp only [Function.comp_apply, zero_add, ← Nat.cast_mul, Int.toNat_natCast]

lemma chunksIdx_nil {α : Type} (m : Nat) (hm : 0 < m) :
    chunksIdx m ([] : List α) = [] := by
  unfold chunksIdx
  rw [List.length_nil, Nat.div_eq_of_lt (by omega)]
  rfl

lemma chunksIdx_cons {α : Type} (m : Nat) (hm : 0 < m) (x : α) (t : List α) :
    chunksIdx m (x :: t) = ((x :: t).take m) :: chunksIdx m ((x :: t).drop m) := by
  unfold chunksIdx
  have hK : ((x :: t).length + m - 1) / m = (((x :: t).drop m).length + m - 1) / m + 1 := by
    rw [List.length_drop]
    exact ceilDiv_succ (x :: t).length m hm (by simp)
  rw [hK, List.range_succ_eq_map, List.map_cons, List.map_map, List.cons.injEq]
  constructor
  · simp
  · apply List.map_congr_left
    intro j _
    simp only [Function.comp_apply, List.drop_drop, Nat.succ_eq_add_one]
    have hmm : m * (j + 1) = m + m * j := by ring
    rw [hmm]

lemma chunksRec_nil {α : Type} (m : Nat) : chunksRec m ([] : List α) = [] := by
  cases m <;> simp [chunksRec]

lemma chunksRec_cons {α : Type} (m : Nat) (hm : 0 < m) (x : α) (t : List α) :
    chunksRec m (x :: t) = ((x :: t).take m) :: chunksRec m ((x :: t).drop m) := by
  obtain ⟨mp, rfl⟩ : ∃ mp, m = mp + 1 := ⟨m - 1, by omega⟩
  simp [chunksRec, List.drop_succ_cons]

lemma chunksIdx_eq_chunksRec {α : Type} (m : Nat) (hm : 0 < m) (xs : List α) :
    chunksIdx m xs = chunksRec m xs := by
  have main : ∀ (n : Nat) (ys : List α), ys.length ≤ n →
      chunksIdx m ys = chunksRec m ys := by
    intro n
    induction n with
    | zero =>
      intro ys hy
      have hnil : ys = [] := List.eq_nil_of_length_eq_zero (by omega)
      rw [hnil, chunksIdx_nil m hm, chunksRec_nil]
    | succ n ih =>
      intro ys hy
      cases ys with
      | nil => rw [chunksIdx_nil m hm, chunksRec_nil]
      | cons y t =>
        rw [chunksIdx_cons m hm, chunksRec_cons m hm]
        congr 1
        apply ih
        rw [List.length_drop]
        simp at hy ⊢
        omega

  exact main xs.length xs le_rfl

lemma chunks_ok {α : Type} (m : Nat) (hm : 0 < m) (xs : List α) :
    chunks xs (m : Int) = .ok (chunksRec m xs) := by
  rw [chunks_eq_chunksIdx m hm, chunksIdx_eq_chunksRec m hm]

lemma chunksRec_join {α : Type} (m : Nat) (hm : 0 < m) (xs : List α) :
    (chunksRec m xs).flatten = xs := by
  have main : ∀ (n : Nat) (ys : List α), ys.length ≤ n →
      (chunksRec m ys).flatten = ys := by
    intro n
    induction n with
    | zero =>
      intro ys hy
      have hnil : ys = [] := List.eq_nil_of_length_eq_zero (by omega)
      rw [hnil, chunksRec_nil]
      rfl
    | succ n ih =>
      intro ys hy
      cases ys with
      | nil => rw [chunksRec_nil]; rfl
      | cons y t =>
        rw [chunksRec_cons m hm, List.flatten_cons]
        rw [ih _ (by rw [List.length_drop]; simp at hy ⊢; omega)]
        exact List.take_append_drop m (y :: t)

  exact main xs.length xs le_rfl

lemma chunksRec_bound {α : Type} (m : Nat) (hm : 0 < m) (xs : List α) :
    ∀ c ∈ chunksRec m xs, c.length ≤ m ∧ c ≠ [] := by
  have main : ∀ (n : Nat) (ys : List α), ys.length ≤ n →
      ∀ c ∈ chunksRec m ys, c.length ≤ m ∧ c ≠ [] := by
    intro n
    induction n with
    | zero =>
      intro ys hy c hc
      have hnil : ys = [] := List.eq_nil_of_length_eq_zero (by omega)
      rw [hnil, chunksRec_nil] at hc
      simp at hc
    | succ n ih =>
      intro ys hy c hc
      cases ys with
      | nil => rw [chunksRec_nil] at hc; simp at hc
      | cons y t =>
        rw [chunksRec_cons m hm] at hc
        rcases List.mem_cons.mp hc with rfl | hc2
        · constructor
          · rw [List.length_take]
            exact min_le_left _ _
          · obtain ⟨mp, rfl⟩ : ∃ mp, m = mp + 1 := ⟨m - 1, by omega⟩
            simp
        · exact ih _ (by rw [List.length_drop]; simp at hy ⊢; omega) c hc2

  exact main xs.length xs le_rfl

lemma chunksRec_length {α : Type} (m : Nat) (hm : 0 < m) (xs : List α) :
    (chunksRec m xs).length = (xs.length + m - 1) / m := by
  rw [← chunksIdx_eq_chunksRec m hm]
  unfold chunksIdx
  simp

lemma sendChunksAux_all_ok {ρ : Type} (g : MgRequest → ρ)
    (mk : List (String × VarVal) → MgRequest) :
    ∀ cs, sendChunksAux (fun r => .ok (g r)) mk cs
      = (cs.map mk, .ok (cs.map (fun c => g (mk c)))) := by
  intro cs
  induction cs with
  | nil => rfl
  | cons c rest ih => simp [sendChunksAux, ih, Except.map]

lemma sendChunksAux_stops {ρ : Type} (post : MgRequest → Except String ρ)
    (mk : List (String × VarVal) → MgRequest)
    (c : List (String × VarVal)) (ys : List (List (String × VarVal))) (e : String)
    (herr : post (mk c) = .error e) :
    ∀ xs, (∀ x ∈ xs, ∃ v, post (mk x) = .ok v) →
      sendChunksAux post mk (xs ++ c :: ys)
        = (xs.map mk ++ [mk c], .error (.postErr e)) := by
  intro xs
  induction xs with
  | nil =>
    intro _
    simp [sendChunksAux, herr]
  | cons x rest ih =>
    intro hok
    obtain ⟨v, hv⟩ := hok x (List.mem_cons_self x rest)
    have htail := ih (fun y hy => hok y (List.mem_cons_of_mem x hy))
    simp [sendChunksAux, hv, htail, Except.map]

lemma sendBatch_validated {ρ : Type} (validEmail validURL : String → Bool)
    (post : MgRequest → Except String ρ)
    (subject th tp : String) (rvd : List (String × VarVal))
    (from_email api domain : String) (n : Int) (urlt : String)
    (hval : validateEntries validEmail rvd = .ok ())
    (hurl : validURL urlt = true) :
    sendBatch validEmail validURL post subject th tp rvd from_email api domain n urlt
      = match chunks rvd n with
        | .error msg => ([], .error (.valueErr msg))
        | .ok cs =>
            sendChunksAux post
              (mkRequest (urlFormat urlt domain) subject from_email th tp api) cs := by
  unfold sendBatch
  rw [hval]
  simp [hurl]

/-- Whether a recipient-variables value is itself a mapping
(`isinstance(variables, dict)`). -/
def VarVal.isMapping : VarVal → Bool
  | .vdict _ => true
  | .vscalar _ => false

lemma validateEntries_ok (validEmail : String → Bool) :
    ∀ rvd : List (String × VarVal),
      (∀ p ∈ rvd, validEmail p.1 = true ∧ p.2.isMapping = true) →
      validateEntries validEmail rvd = .ok () := by
  intro rvd
  induction rvd with
  | nil => intro _; rfl
  | cons hd tl ih =>
    intro h
    obtain ⟨em, vv⟩ := hd
    obtain ⟨he, hm⟩ := h (em, vv) (List.mem_cons_self _ _)
    cases vv with
    | vdict d =>
      simp only [validateEntries, he, Bool.not_true, Bool.false_eq_true, if_false]
      exact ih (fun p hp => h p (List.mem_cons_of_mem _ hp))
    | vscalar sv => simp [VarVal.isMapping] at hm

lemma validateEntries_fails (validEmail : String → Bool) :
    ∀ rvd : List (String × VarVal),
      (∃ p ∈ rvd, validEmail p.1 = false ∨ p.2.isMapping = false) →
      ∃ e, validateEntries validEmail rvd = .error e := by
  intro rvd
  induction rvd with
  | nil => intro h; simp at h
  | cons hd tl ih =>
    intro h
    obtain ⟨p, hp, hbad⟩ := h
    obtain ⟨em, vv⟩ := hd
    by_cases he : validEmail em = true
    · cases vv with
      | vdict d =>
        rcases List.mem_cons.mp hp with rfl | hmem
        · rcases hbad with hb | hb
          · rw [he] at hb; exact absurd hb (by decide)
          · simp [VarVal.isMapping] at hb
        · obtain ⟨e, hee⟩ := ih ⟨p, hmem, hbad⟩
          refine ⟨e, ?_⟩
          simp [validateEntries, he, hee]
      | vscalar sv =>
        refine ⟨.typeErr "Should be dict as described in the Mailgun user manual", ?_⟩
        simp [validateEntries, he]
    · have hef : validEmail em = false := by
        revert he; cases validEmail em <;> simp
      refine ⟨.validationErr em, ?_⟩
      simp [validateEntries, hef]

def rvd1 : List (String × VarVal) := [("a@x.com", VarVal.vdict [])]

def rvd2 : List (String × VarVal) :=
  [("a@x.com", VarVal.vdict []), ("b@x.com", VarVal.vdict [])]

def rvd5 : List (String × VarVal) :=
  [("a@x.com", .vdict []), ("b@x.com", .vdict []), ("c@x.com", .vdict []),
   ("d@x.com", .vdict []), ("e@x.com", .vdict [])]

/-- C3: for a positive batch size, `send_batch` splits the association
list into consecutive chunks of at most `n` entries (none empty) whose
concatenation is the original mapping, with `ceil(len/n)` chunks, and
issues exactly one request per chunk in chunk order; concretely, 5
recipients with batch size 2 give 3 requests of sizes 2, 2, 1. -/
theorem C3_batch_chunking {ρ : Type} (rvd : List (String × VarVal)) (n : Int)
    (g : MgRequest → ρ)
    (subject th tp from_email api domain urlt : String) (hn : 0 < n)
    (hmap : ∀ p ∈ rvd, p.2.isMapping = true) :
    (∃ cs, chunks rvd n = .ok cs
      ∧ cs.flatten = rvd
      ∧ (∀ c ∈ cs, c.length ≤ n.toNat ∧ c ≠ [])
      ∧ cs.length = (rvd.length + n.toNat - 1) / n.toNat
      ∧ sendBatch (fun _ => true) (fun _ => true) (fun r => .ok (g r))
          subject th tp rvd from_email api domain n urlt
        = (cs.map (mkRequest (urlFormat urlt domain) subject from_email th tp api),
           .ok (cs.map (fun c => g (mkRequest (urlFormat urlt domain) subject from_email th tp api c)))))
    ∧ chunks rvd5 (2 : Int) = .ok [rvd5.take 2, (rvd5.drop 2).take 2, rvd5.drop 4]
    ∧ ((sendBatch (fun _ => true) (fun _ => true) (fun _ => Except.ok ())
          "s" "h" "t" rvd5 "f" "k" "d" 2 "u").1).map (fun r => r.recipients.length)
        = [2, 2, 1] := by
  refine ⟨?_, rfl, rfl⟩
  obtain ⟨m, rfl⟩ : ∃ m : Nat, n = (m : Int) := ⟨n.toNat, by omega⟩
  have hm0 : 0 < m := by exact_mod_cast hn
  have hval : validateEntries (fun _ => true) rvd = .ok () :=
    validateEntries_ok _ rvd (fun p hp => ⟨rfl, hmap p hp⟩)
  refine ⟨chunksRec m rvd, chunks_ok m hm0 rvd, chunksRec_join m hm0 rvd, ?_, ?_, ?_⟩
  · rw [Int.toNat_natCast]
    exact chunksRec_bound m hm0 rvd
  · rw [Int.toNat_natCast]
    exact chunksRec_length m hm0 rvd
  · rw [sendBatch_validated (fun _ => true) (fun _ => true) (fun r => .ok (g r))
        subject th tp rvd from_email api domain (m : Int) urlt hval rfl]
    rw [chunks_ok m hm0 rvd]
    exact sendChunksAux_all_ok g _ (chunksRec m rvd)

/-- Witness for C3 at `rvd5` and batch size 2. -/
theorem C3_batch_chunking_witness :
    ((∃ cs, chunks rvd5 (2 : Int) = .ok cs
      ∧ cs.flatten = rvd5
      ∧ (∀ c ∈ cs, c.length ≤ (2 : Int).toNat ∧ c ≠ [])
      ∧ cs.length = (rvd5.length + (2 : Int).toNat - 1) / (2 : Int).toNat
      ∧ sendBatch (fun _ => true) (fun _ => true) (fun _ => .ok (PUnit.unit : PUnit))
          "s" "h" "t" rvd5 "f" "k" "d" (2 : Int) "u"
        = (cs.map (mkRequest (urlFormat "u" "d") "s" "f" "h" "t" "k"),
           .ok (cs.map (fun c => (fun _ => PUnit.unit) (mkRequest (urlFormat "u" "d") "s" "f" "h" "t" "k" c)))))
    ∧ chunks rvd5 (2 : Int) = .ok [rvd5.take 2, (rvd5.drop 2).take 2, rvd5.drop 4]
    ∧ ((sendBatch (fun _ => true) (fun _ => true) (fun _ => Except.ok ())
          "s" "h" "t" rvd5 "f" "k" "d" 2 "u").1).map (fun r => r.recipients.length)
        = [2, 2, 1]) :=
  C3_batch_chunking rvd5 2 (fun _ => PUnit.unit) "s" "h" "t" "f" "k" "d" "u"
    (by decide) (by decide)

/-- C4 fails as stated: the batch size is never validated.  With a
negative batch size and otherwise perfectly valid input, `send_batch`
raises no error at all and silently posts nothing. -/
theorem C4_counterexample :
    sendBatch (fun _ => true) (fun _ => true) (fun _ => (Except.ok () : Except String Unit))
      "subj" "h" "t" rvd1 "f@x.com" "key" "dom" (-1) "https://api/{0}/messages"
      = ([], Except.ok [])
    ∧ ¬((0 : Int) < -1) :=
  ⟨rfl, by decide⟩

/-- C4 (amended): `send_batch` checks every key against the email
validator and every value for being a mapping, then the URL template,
all before any transport call, and any of those violations aborts the
whole call with an error and an empty request list.  The batch size is
not validated: a zero batch size still aborts with an error before any
transport call (raised at chunking time), while a negative batch size is
silently accepted. -/
theorem C4_validation_before_transport {ρ : Type} (validEmail validURL : String → Bool)
    (post : MgRequest → Except String ρ)
    (subject th tp : String) (rvd : List (String × VarVal))
    (from_email api domain urlt : String) (n : Int) :
    ((∃ p ∈ rvd, validEmail p.1 = false ∨ p.2.isMapping = false) →
       ∃ err, sendBatch validEmail validURL post subject th tp rvd from_email api domain n urlt
         = ([], .error err))
    ∧ (validateEntries validEmail rvd = .ok () → validURL urlt = false →
       sendBatch validEmail validURL post subject th tp rvd from_email api domain n urlt
         = ([], .error (.validationErr urlt)))
    ∧ (validateEntries validEmail rvd = .ok () → validURL urlt = true → n = 0 →
       sendBatch validEmail validURL post subject th tp rvd from_email api domain n urlt
         = ([], .error (.valueErr "range() arg 3 must not be zero"))) := by
  refine ⟨?_, ?_, ?_⟩
  · intro hbad
    obtain ⟨e, he⟩ := validateEntries_fails validEmail rvd hbad
    exact ⟨e, by simp [sendBatch, he]⟩
  · intro hval hurl
    unfold sendBatch
    rw [hval]
    simp [hurl]
  · intro hval hurl hn
    rw [sendBatch_validated validEmail validURL post subject th tp rvd from_email api
        domain n urlt hval hurl]
    subst hn
    simp [chunks, pyRange, Except.map]

/-- Witness for the amended C4: a syntactically invalid key aborts the
call with an error and no request is posted. -/
theorem C4_validation_before_transport_witness :
    ∃ err, sendBatch (fun s => s == "a@x.com") (fun _ => true)
        (fun _ => (Except.ok () : Except String Unit))
        "subj" "h" "t" [("notanemail", VarVal.vdict [])] "f@x.com" "key" "dom" 10 "u"
      = ([], .error err) :=
  (C4_validation_before_transport (fun s => s == "a@x.com") (fun _ => true)
      (fun _ => (Except.ok () : Except String Unit))
      "subj" "h" "t" [("notanemail", VarVal.vdict [])] "f@x.com" "key" "dom" "u" 10).1
    ⟨("notanemail", VarVal.vdict []), List.mem_cons_self _ _, Or.inl rfl⟩

/-- C5 fails as stated: a raised transport error on the first of two
chunks aborts the whole call; the second chunk is never attempted and no
per-chunk response list is accumulated. -/
theorem C5_counterexample :
    sendBatch (fun _ => true) (fun _ => true)
      (fun _ => (Except.error "boom" : Except String Unit))
      "s" "h" "t" rvd2 "f" "k" "d" 1 "u"
      = ([mkRequest "u" "s" "f" "h" "t" "k" [("a@x.com", VarVal.vdict [])]],
         .error (.postErr "boom"))
    ∧ chunks rvd2 (1 : Int)
        = .ok [[("a@x.com", VarVal.vdict [])], [("b@x.com", VarVal.vdict [])]]
    ∧ (1 : Nat) ≠ 2 :=
  ⟨rfl, rfl, by decide⟩

/-- C5 (amended): while the transport returns normally its responses
(including error-valued responses) accumulate one per chunk in chunk
order; but a raised transport exception for one chunk propagates out of
`send_batch`, the requests actually posted stop at the failing chunk, and
the remaining chunks are never attempted. -/
theorem C5_chunk_error_propagation {ρ : Type} (validEmail validURL : String → Bool)
    (post : MgRequest → Except String ρ)
    (subject th tp : String) (rvd : List (String × VarVal))
    (from_email api domain urlt : String) (n : Int)
    (hval : validateEntries validEmail rvd = .ok ())
    (hurl : validURL urlt = true) :
    (∀ (g : MgRequest → ρ) cs, chunks rvd n = .ok cs →
        sendBatch validEmail validURL (fun r => .ok (g r)) subject th tp rvd from_email api domain n urlt
          = (cs.map (mkRequest (urlFormat urlt domain) subject from_email th tp api),
             .ok (cs.map (fun c => g (mkRequest (urlFormat urlt domain) subject from_email th tp api c)))))
    ∧ (∀ xs c ys e, chunks rvd n = .ok (xs ++ c :: ys) →
        (∀ x ∈ xs, ∃ v, post (mkRequest (urlFormat urlt domain) subject from_email th tp api x) = .ok v) →
        post (mkRequest (urlFormat urlt domain) subject from_email th tp api c) = .error e →
        sendBatch validEmail validURL post subject th tp rvd from_email api domain n urlt
          = (xs.map (mkRequest (urlFormat urlt domain) subject from_email th tp api)
               ++ [mkRequest (urlFormat urlt domain) subject from_email th tp api c],
             .error (.postErr e))) := by
  constructor
  · intro g cs hch
    rw [sendBatch_validated validEmail validURL (fun r => .ok (g r)) subject th tp rvd
        from_email api domain n urlt hval hurl, hch]
    exact sendChunksAux_all_ok g _ cs
  · intro xs c ys e hch hok herr
    rw [sendBatch_validated validEmail validURL post subject th tp rvd
        from_email api domain n urlt hval hurl, hch]
    exact sendChunksAux_stops post _ c ys e herr xs hok

/-- Witness for the amended C5: with two one-entry chunks and a transport
failing on the first, only the first request is posted and the error
propagates. -/
theorem C5_chunk_error_propagation_witness :
    sendBatch (fun _ => true) (fun _ => true)
        (fun _ => (Except.error "boom" : Except String Unit))
        "s" "h" "t" rvd2 "f" "k" "d" 1 "u"
      = (([] : List (List (String × VarVal))).map (mkRequest (urlFormat "u" "d") "s" "f" "h" "t" "k")
           ++ [mkRequest (urlFormat "u" "d") "s" "f" "h" "t" "k" [("a@x.com", VarVal.vdict [])]],
         .error (.postErr "boom")) :=
  (C5_chunk_error_propagation (fun _ => true) (fun _ => true)
      (fun _ => (Except.error "boom" : Except String Unit))
      "s" "h" "t" rvd2 "f" "k" "d" "u" 1 rfl rfl).2
    [] [("a@x.com", VarVal.vdict [])] [[("b@x.com", VarVal.vdict [])]] "boom"
    rfl (by intro x hx; simp at hx) rfl

/-! ### Lemmas and claims about batch variable resolution -/

lemma mapM_ok_mem {ε α β : Type} (f : α → Except ε β) :
    ∀ (l : List α) (res : List β), l.mapM f = .ok res →
      ∀ b ∈ res, ∃ a ∈ l, f a = .ok b := by
  intro l
  induction l with
  | nil =>
    intro res h b hb
    simp only [List.mapM_nil] at h
    cases h
    simp at hb
  | cons a l ih =>
    intro res h b hb
    rw [List.mapM_cons] at h
    cases hfa : f a with
    | error e =>
      rw [hfa] at h
      simp [Bind.bind, Except.bind] at h
    | ok v =>
      rw [hfa] at h
      cases hml : l.mapM f with
      | error e =>
        rw [hml] at h
        simp [Bind.bind, Except.bind] at h
      | ok vs =>
        rw [hml] at h
        simp only [Bind.bind, Except.bind] at h
        injection h with h2
        subst h2
        rcases List.mem_cons.mp hb with rfl | hb2
        · exact ⟨a, List.mem_cons_self _ _, hfa⟩
        · obtain ⟨a2, ha2, hfa2⟩ := ih vs hml b hb2
          exact ⟨a2, List.mem_cons_of_mem _ ha2, hfa2⟩

def mC8 : BatchMessage :=
  { vnames := ["x"],
    accessors := fun s => if s = "x" then some (fun _ => .pstr "X") else none }

def mNoAcc : BatchMessage := { vnames := ["y"], accessors := fun _ => none }

def uC8 : User :=
  { id := 9, email := "c8@example.com",
    attrs := fun s => if s = "x" then .pstr "" else .pnone }

/-- C8 fails as stated: `uC8` has an attribute `x` (the falsy empty
string) and an accessor exists, yet resolution uses the accessor's value
instead of the attribute's — the attribute does not take precedence when
its value is falsy. -/
theorem C8_counterexample :
    mC8.mailgunVariablesForUser uC8 true = .ok [("x", PyVal.pstr "X")]
    ∧ uC8.attrs "x" = PyVal.pstr ""
    ∧ PyVal.pstr "X" ≠ PyVal.pstr "" := by
  refine ⟨rfl, rfl, ?_⟩
  intro h
  injection h with h2
  exact absurd h2 (by decide)

/-- C8 (amended): a truthy attribute takes precedence over the accessor;
a falsy or missing attribute falls through to the accessor when one
exists; with neither a truthy attribute nor an accessor, strict mode
fails with a `ValueError` naming the variable and lenient mode yields the
empty string; a single-variable strict failure propagates out of
`mailgun_variables_for_user`. -/
theorem C8_variable_resolution (m : BatchMessage) (user : User) (v : String) :
    ((user.attrs v).truthy = true →
       ∀ strict, m.getValue user strict v = .ok (PyVal.call (user.attrs v)))
    ∧ ((user.attrs v).truthy = false → ∀ f, m.accessors v = some f →
       ∀ strict, m.getValue user strict v = .ok (f user))
    ∧ ((user.attrs v).truthy = false → m.accessors v = none →
       m.getValue user true v
         = .error ("There is no way to get `" ++ v ++ "` from user."
             ++ "user." ++ v ++ " and MailgunBatchMessage.get_var_" ++ v ++ " tried")
       ∧ m.getValue user false v = .ok (.pstr ""))
    ∧ (m.vnames = [v] → (user.attrs v).truthy = false → m.accessors v = none →
       m.mailgunVariablesForUser user true
         = .error ("There is no way to get `" ++ v ++ "` from user."
             ++ "user." ++ v ++ " and MailgunBatchMessage.get_var_" ++ v ++ " tried")) := by
  refine ⟨?_, ?_, ?_, ?_⟩
  · intro ht strict
    simp [BatchMessage.getValue, ht]
  · intro hf f hacc strict
    simp [BatchMessage.getValue, hf, hacc, PyVal.call]
  · intro hf hacc
    constructor <;> simp [BatchMessage.getValue, hf, hacc]
  · intro hv hf hacc
    unfold BatchMessage.mailgunVariablesForUser
    rw [hv]
    simp [List.mapM, List.mapM.loop, BatchMessage.getValue, hf, hacc, Bind.bind,
      Except.bind, Except.map]

/-- Witness for the amended C8: with no attribute and no accessor, strict
mode raises the naming error, lenient mode yields the empty string. -/
theorem C8_variable_resolution_witness :
    mNoAcc.getValue uC8 true "y"
      = .error ("There is no way to get `" ++ "y" ++ "` from user."
          ++ "user." ++ "y" ++ " and MailgunBatchMessage.get_var_" ++ "y" ++ " tried")
    ∧ mNoAcc.getValue uC8 false "y" = .ok (.pstr "") :=
  (C8_variable_resolution mNoAcc uC8 "y").2.2.1 rfl rfl

/-- C10: a recipient with an empty email address is silently dropped from
the recipient-variables dictionary — it changes nothing in the result and
causes no error — and every key of the dictionary is a non-empty email. -/
theorem C10_empty_email_skipped (m : BatchMessage) (qs : List User) (strict : Bool)
    (u : User) (hu : u.email = "") :
    m.getVariables (u :: qs) strict = m.getVariables qs strict
    ∧ (∀ res, m.getVariables qs strict = .ok res → ∀ p ∈ res, p.1 ≠ "") := by
  constructor
  · unfold BatchMessage.getVariables
    rw [List.filter_cons]
    have hie : ("" : String).isEmpty = true := rfl
    simp [hu, hie]
  · intro res hres p hp
    unfold BatchMessage.getVariables at hres
    obtain ⟨x, hx, hfx⟩ := mapM_ok_mem _ _ res hres p hp
    have hxe := (List.mem_filter.mp hx).2
    cases hm : m.mailgunVariablesForUser x strict with
    | error e => rw [hm] at hfx; simp [Except.map] at hfx
    | ok vs =>
      rw [hm] at hfx
      simp [Except.map] at hfx
      intro hp1
      have hx0 : x.email = "" := by rw [← hfx] at hp1; exact hp1
      simp [hx0] at hxe
      exact absurd hxe (by decide)

def uEmpty : User := { id := 4, email := "", attrs := fun _ => .pnone }

/-- Witness for C10: an empty-email recipient drops out of the batch
dictionary silently. -/
theorem C10_empty_email_skipped_witness :
    mC8.getVariables (uEmpty :: [uW1]) true = mC8.getVariables [uW1] true
    ∧ (∀ res, mC8.getVariables [uW1] true = .ok res → ∀ p ∈ res, p.1 ≠ "") :=
  C10_empty_email_skipped mC8 [uW1] true uEmpty rfl

end DjangoDrip
